import Mathlib

/-!
Verification of the Lib_Pal_RAG core: the chunking algorithm of
`DocumentProcessor._split_text_into_chunks` (document_processor.py) and the
query pipeline of `RAGPipeline` (rag_pipeline.py).

Python strings are embedded as `List Char`; Python `int` as `Nat`/`Int`
(`Int` where the source can go negative, e.g. `str.rfind` and the
`start = end - overlap` update).  The two opaque external capabilities
(the FAISS similarity search and the Gemini generation call) are embedded
as function-valued fields of the pipeline state returning `Except`, so
that an exception raised by the external call is an `Except.error` value.
The chunking loop, which need not terminate, is embedded with explicit
fuel, returning `none` exactly when the loop would still be running after
`fuel` iterations.
-/

/-- Python strings, embedded as lists of characters. -/
abbrev Str := List Char

/-- The characters Python `str.strip()` removes (`str.isspace` set, ASCII part). -/
def pyIsSpace (c : Char) : Bool :=
  c == ' ' || c == '\t' || c == '\n' || c == '\r' || c == '\x0b' || c == '\x0c'

/-- Python `text.strip()`: drop whitespace from both ends. -/
def pyStrip (l : Str) : Str :=
  List.rdropWhile pyIsSpace (List.dropWhile pyIsSpace l)

/-- Python `text[s:e]` for `0 ≤ s ≤ e` (out-of-range indices clamp). -/
def pySlice (t : Str) (s e : Nat) : Str :=
  (t.drop s).take (e - s)

/-- Python `text.rfind(c, s, e)`: the largest index `i` with `s ≤ i < min e (len text)`
and `text[i] = c`, or `-1` when there is none. -/
def pyRfind (t : Str) (c : Char) (s e : Nat) : Int :=
  match ((List.range (min e t.length)).filter
      (fun i => decide (s ≤ i) && (t.get? i == some c))).getLast? with
  | some i => (i : Int)
  | none => -1

/-- Configuration of `DocumentProcessor.__init__` (document_processor.py line 13). -/
structure DocumentProcessor where
  chunk_size : Nat
  chunk_overlap : Nat
deriving DecidableEq

/-- The boundary search of `_split_text_into_chunks` (document_processor.py
lines 128-145): raw end is `start + chunk_size`; if that is strictly inside the
text, prefer the last sentence terminator in `[start, end)` (cut just after it),
then the last space (cut at it), requiring each to lie strictly after `start`. -/
def chunkEnd (chunk_size : Nat) (text : Str) (start : Nat) : Nat :=
  let e := start + chunk_size
  if e < text.length then
    let last_period := pyRfind text '.' start e
    let last_exclamation := pyRfind text '!' start e
    let last_question := pyRfind text '?' start e
    let sentence_end := max last_period (max last_exclamation last_question)
    if (start : Int) < sentence_end then (sentence_end + 1).toNat
    else
      let last_space := pyRfind text ' ' start e
      if (start : Int) < last_space then last_space.toNat
      else e
  else e

/-- The `while start < len(text)` loop of `_split_text_into_chunks`
(document_processor.py lines 127-154), with fuel: each iteration slices
`text[start:end]`, strips it, appends it when non-empty, then sets
`start = end - chunk_overlap` and breaks when that is `≤ 0`.  Returns `none`
when the loop is still running after `fuel` iterations. -/
def splitLoop (chunk_size chunk_overlap : Nat) (text : Str) :
    Nat → Nat → List Str → Option (List Str)
  | 0, _, _ => none
  | fuel + 1, start, chunks =>
    if start < text.length then
      let e := chunkEnd chunk_size text start
      let chunk := pyStrip (pySlice text start e)
      let chunks' := if chunk = [] then chunks else chunks ++ [chunk]
      if (e : Int) - (chunk_overlap : Int) ≤ 0 then some chunks'
      else splitLoop chunk_size chunk_overlap text fuel
        ((e : Int) - (chunk_overlap : Int)).toNat chunks'
    else some chunks

/-- `DocumentProcessor._split_text_into_chunks` (document_processor.py lines
119-156): texts no longer than `chunk_size` are returned whole as a single
chunk, with no stripping and no blank check; longer texts go through the
windowing loop. -/
def splitTextIntoChunks (dp : DocumentProcessor) (text : Str) (fuel : Nat) :
    Option (List Str) :=
  if text.length ≤ dp.chunk_size then some [text]
  else splitLoop dp.chunk_size dp.chunk_overlap text fuel 0 []

/-- A 27-character text on which the windowing loop never makes progress past
`start = 6` when `chunk_size = 10` and `chunk_overlap = 2`: the only space sits
at index 8, so every window starting at 6 is cut at 8 and the overlap update
returns the start to 6. -/
def stallText : Str := "abcdefgh ijklmnopqrstuvwxyz".data

theorem splitLoop_stallText_six (fuel : Nat) :
    ∀ chunks, splitLoop 10 2 stallText fuel 6 chunks = none := by
  induction fuel with
  | zero => intro chunks; rfl
  | succ n ih =>
    intro chunks
    have h : splitLoop 10 2 stallText (n + 1) 6 chunks =
        splitLoop 10 2 stallText n 6 (chunks ++ ["gh".data]) := rfl
    rw [h]
    exact ih _

/-- C4: the claim says the chunking loop terminates for every text and every
configuration with `chunk_size > 0` and `0 ≤ overlap < chunk_size`.  The code
violates this: on `stallText` with `chunk_size = 10`, `chunk_overlap = 2` the
loop revisits `start = 6` forever (the `start <= 0` guard is never reached at a
positive stalled start), so the fueled embedding returns `none` for every
amount of fuel. -/
theorem splitTextIntoChunks_stallText_diverges (fuel : Nat) :
    splitTextIntoChunks ⟨10, 2⟩ stallText fuel = none := by
  cases fuel with
  | zero => rfl
  | succ n =>
    have h : splitTextIntoChunks ⟨10, 2⟩ stallText (n + 1) =
        splitLoop 10 2 stallText n 6 ["abcdefgh".data] := rfl
    rw [h]
    exact splitLoop_stallText_six n _

/-- C3 counterexample: on the blank one-character text `" "` (which has length
at most `chunk_size`), the code returns the single chunk `" "` verbatim — a
whitespace-only chunk — not the empty sequence the claim requires for blank
input, and not the stripped input. -/
theorem splitTextIntoChunks_blank_counterexample :
    splitTextIntoChunks ⟨5, 2⟩ ([' ']) 10 = some [[' ']] ∧
      pyStrip ([' ']) = [] ∧ ([' '] : Str) ≠ [] := by
  refine ⟨rfl, rfl, by decide⟩

/-- C3 amended: for every text with `len(text) ≤ chunk_size` the chunking
function returns exactly one chunk equal to the input verbatim — it is not
stripped, and a blank input is returned as a single blank chunk rather than
dropped (the drop-blank step only runs on the windowing path for longer
texts). -/
theorem splitTextIntoChunks_short (dp : DocumentProcessor) (text : Str)
    (fuel : Nat) (h : text.length ≤ dp.chunk_size) :
    splitTextIntoChunks dp text fuel = some [text] := by
  unfold splitTextIntoChunks
  exact if_pos h

/-- C3 amended, witness: the short blank text `" "` with `chunk_size = 5`. -/
theorem splitTextIntoChunks_short_witness :
    ([' '] : Str).length ≤ (5 : Nat) ∧
      splitTextIntoChunks ⟨5, 2⟩ ([' ']) 10 = some [[' ']] :=
  ⟨by decide, splitTextIntoChunks_short ⟨5, 2⟩ ([' ']) 10 (by decide)⟩

theorem pyRfind_lt (t : Str) (c : Char) (s e : Nat) : pyRfind t c s e < (e : Int) := by
  unfold pyRfind
  cases hl : ((List.range (min e t.length)).filter
      (fun i => decide (s ≤ i) && (t.get? i == some c))).getLast? with
  | none => simp; omega
  | some i =>
    simp only []
    have hmem : i ∈ ((List.range (min e t.length)).filter
        (fun i => decide (s ≤ i) && (t.get? i == some c))) := by
      rcases List.mem_getLast?_eq_getLast (Option.mem_def.mpr hl) with ⟨hne, heq⟩
      rw [heq]
      exact List.getLast_mem hne
    have hi := List.mem_range.mp (List.mem_of_mem_filter hmem)
    have : i < e := lt_of_lt_of_le hi (min_le_left _ _)
    exact_mod_cast this

theorem chunkEnd_le (chunk_size : Nat) (text : Str) (start : Nat) :
    chunkEnd chunk_size text start ≤ start + chunk_size := by
  unfold chunkEnd
  by_cases h1 : start + chunk_size < text.length
  · rw [if_pos h1]
    by_cases h2 : (start : Int) <
        max (pyRfind text '.' start (start + chunk_size))
          (max (pyRfind text '!' start (start + chunk_size))
            (pyRfind text '?' start (start + chunk_size)))
    · rw [if_pos h2]
      have hm : max (pyRfind text '.' start (start + chunk_size))
          (max (pyRfind text '!' start (start + chunk_size))
            (pyRfind text '?' start (start + chunk_size))) <
          ((start + chunk_size : Nat) : Int) :=
        max_lt (pyRfind_lt _ _ _ _) (max_lt (pyRfind_lt _ _ _ _) (pyRfind_lt _ _ _ _))
      exact Int.toNat_le.mpr (by omega)
    · rw [if_neg h2]
      by_cases h3 : (start : Int) < pyRfind text ' ' start (start + chunk_size)
      · rw [if_pos h3]
        have := pyRfind_lt text ' ' start (start + chunk_size)
        exact Int.toNat_le.mpr (by omega)
      · rw [if_neg h3]
  · rw [if_neg h1]

theorem pyStrip_sub (l : Str) : pyStrip l <:+: l :=
  (List.rdropWhile_prefix _ _).isInfix.trans (List.dropWhile_suffix _).isInfix

theorem pySlice_sub (t : Str) (s e : Nat) : pySlice t s e <:+: t :=
  (List.take_prefix _ _).isInfix.trans (List.drop_suffix _ _).isInfix

theorem pyStrip_pySlice_length (t : Str) (s e : Nat) :
    (pyStrip (pySlice t s e)).length ≤ e - s := by
  refine le_trans (pyStrip_sub _).length_le ?_
  rw [pySlice, List.length_take]
  exact min_le_left _ _

/-- The accumulator update of one loop iteration preserves any property `P`
that the freshly stripped non-empty chunk enjoys. -/
theorem mem_ite_append {P : Str → Prop} {chunks : List Str} {chunk : Str}
    (hacc : ∀ c ∈ chunks, P c) (hc : chunk ≠ [] → P chunk) :
    ∀ c ∈ (if chunk = [] then chunks else chunks ++ [chunk]), P c := by
  intro c hm
  by_cases hch : chunk = []
  · rw [if_pos hch] at hm
    exact hacc c hm
  · rw [if_neg hch] at hm
    rcases List.mem_append.mp hm with h | h
    · exact hacc c h
    · rw [List.mem_singleton.mp h]
      exact hc hch

/-- Every property of the non-empty stripped window slices is an invariant of
the chunking loop accumulator. -/
theorem splitLoop_invariant (cs ov : Nat) (t : Str) (P : Str → Prop)
    (hP : ∀ start : Nat, pyStrip (pySlice t start (chunkEnd cs t start)) ≠ [] →
      P (pyStrip (pySlice t start (chunkEnd cs t start)))) :
    ∀ fuel start chunks res, (∀ c ∈ chunks, P c) →
      splitLoop cs ov t fuel start chunks = some res → ∀ c ∈ res, P c := by
  intro fuel
  induction fuel with
  | zero =>
    intro start chunks res _ h
    exact absurd h (by simp [splitLoop])
  | succ n ih =>
    intro start chunks res hacc h
    simp only [splitLoop] at h
    by_cases hs : start < t.length
    · rw [if_pos hs] at h
      by_cases hb : ((chunkEnd cs t start : Int) - (ov : Int)) ≤ 0
      · rw [if_pos hb] at h
        have hres := Option.some.inj h
        subst hres
        exact mem_ite_append hacc (hP start)
      · rw [if_neg hb] at h
        exact ih _ _ _ (mem_ite_append hacc (hP start)) h
    · rw [if_neg hs] at h
      have hres := Option.some.inj h
      subst hres
      exact hacc

/-- C9: for every text, `chunk_size > 0` and `0 ≤ overlap < chunk_size`, every
chunk returned by `_split_text_into_chunks` has length at most `chunk_size`:
the boundary search only ever moves the cut point earlier, never past
`start + chunk_size`. -/
theorem splitTextIntoChunks_length_le (dp : DocumentProcessor) (text : Str)
    (fuel : Nat) (res : List Str) (_hcs : 0 < dp.chunk_size)
    (_hov : dp.chunk_overlap < dp.chunk_size)
    (h : splitTextIntoChunks dp text fuel = some res) :
    ∀ c ∈ res, c.length ≤ dp.chunk_size := by
  unfold splitTextIntoChunks at h
  by_cases hshort : text.length ≤ dp.chunk_size
  · rw [if_pos hshort] at h
    have hres := Option.some.inj h
    subst hres
    intro c hm
    rw [List.mem_singleton.mp hm]
    exact hshort
  · rw [if_neg hshort] at h
    refine splitLoop_invariant dp.chunk_size dp.chunk_overlap text
      (fun c => c.length ≤ dp.chunk_size) ?_ fuel 0 [] res (by simp) h
    intro start _
    refine le_trans (pyStrip_pySlice_length _ _ _) ?_
    have := chunkEnd_le dp.chunk_size text start
    omega

/-- C9 witness: `chunk_size = 4`, `overlap = 0` on `"ab cdefg"`. -/
theorem splitTextIntoChunks_length_le_witness :
    (0 : Nat) < 4 ∧ (0 : Nat) < 4 ∧
      ∀ c ∈ ["ab".data, "cde".data, "fg".data], List.length c ≤ 4 :=
  ⟨by decide, by decide,
    splitTextIntoChunks_length_le ⟨4, 0⟩ ("ab cdefg".data) 10
      ["ab".data, "cde".data, "fg".data] (by decide) (by decide) (by decide)⟩

/-- C5 counterexample: with `chunk_size = 4`, `overlap = 0` (so there are no
overlap regions to remove) on the 8-character text `"ab cdefg"`, the code
returns the chunks `"ab"`, `"cde"`, `"fg"`; their concatenation drops the
space at index 2, so the original character sequence is not reconstructed. -/
theorem splitTextIntoChunks_reconstruction_counterexample :
    splitTextIntoChunks ⟨4, 0⟩ ("ab cdefg".data) 10 =
      some ["ab".data, "cde".data, "fg".data] ∧
      List.flatten ["ab".data, "cde".data, "fg".data] ≠ "ab cdefg".data :=
  ⟨rfl, by decide⟩

/-- C5 amended: exact reconstruction fails because each window slice is
stripped before being appended, dropping whitespace at window edges.  What
holds instead: for every text longer than `chunk_size`, every returned chunk
is a non-empty contiguous substring of the original text. -/
theorem splitTextIntoChunks_contiguous (dp : DocumentProcessor) (text : Str)
    (fuel : Nat) (res : List Str) (hlong : dp.chunk_size < text.length)
    (h : splitTextIntoChunks dp text fuel = some res) :
    ∀ c ∈ res, c ≠ [] ∧ c <:+: text := by
  unfold splitTextIntoChunks at h
  rw [if_neg (not_le.mpr hlong)] at h
  refine splitLoop_invariant dp.chunk_size dp.chunk_overlap text
    (fun c => c ≠ [] ∧ c <:+: text) ?_ fuel 0 [] res (by simp) h
  intro start hne
  exact ⟨hne, (pyStrip_sub _).trans (pySlice_sub _ _ _)⟩

/-- C5 amended, witness: the run of the C5 counterexample. -/
theorem splitTextIntoChunks_contiguous_witness :
    (4 : Nat) < ("ab cdefg".data).length ∧
      ∀ c ∈ ["ab".data, "cde".data, "fg".data],
        c ≠ [] ∧ c <:+: "ab cdefg".data :=
  ⟨by decide,
    splitTextIntoChunks_contiguous ⟨4, 0⟩ ("ab cdefg".data) 10
      ["ab".data, "cde".data, "fg".data] (by decide) (by decide)⟩

/-- The metadata dict attached to a chunk by `DocumentProcessor.process_file`
(document_processor.py lines 43-47) and carried through the vector store:
`source` is `Option` because `_prepare_context` reads it with
`metadata.get("source", "Unknown")`. -/
structure Metadata where
  source : Option Str
  chunk_id : Nat
  file_type : Str
deriving DecidableEq

/-- A langchain `Document` as consumed by `_retrieve_documents`:
`page_content` plus metadata. -/
structure Document where
  page_content : Str
  metadata : Metadata
deriving DecidableEq

/-- A retrieved hit as built by `RAGPipeline._retrieve_documents`
(rag_pipeline.py lines 60-65): `{"content", "metadata", "score"}`.  Scores are
embedded as `Int`; the pipeline only ever compares them. -/
structure Hit where
  content : Str
  metadata : Metadata
  score : Int
deriving DecidableEq

/-- A formatted source entry as built by `RAGPipeline._format_sources`
(rag_pipeline.py lines 135-139). -/
structure SourceInfo where
  content : Str
  score : Int
  metadata : Metadata
deriving DecidableEq

/-- The dict returned by `RAGPipeline.query`: `{"answer", "sources"}`. -/
structure QueryResponse where
  answer : Str
  sources : List SourceInfo
deriving DecidableEq

/-- The state of a `RAGPipeline` (rag_pipeline.py lines 12-16).  The two
opaque externals are function-valued fields: `vector_store` embeds
`FAISS.similarity_search_with_score` (query and `k` to scored documents, or a
raised exception), `gemini_client` embeds `GeminiClient.generate_response`
(prompt to generated text, or a raised exception). -/
structure RAGPipeline where
  vector_store : Str → Nat → Except Str (List (Document × Int))
  gemini_client : Str → Except Str Str
  max_context_length : Nat

/-- One step of a stable descending insertion sort: place `x` after every
element whose score is at least `x.score`. -/
def insortDesc (x : Hit) : List Hit → List Hit
  | [] => [x]
  | y :: ys => if y.score < x.score then x :: y :: ys else y :: insortDesc x ys

/-- Python `formatted_results.sort(key=lambda x: x["score"], reverse=True)`
(rag_pipeline.py line 68): a stable sort, descending by score.  Embedded as a
stable insertion sort, which computes the same permutation as any stable
descending sort. -/
def sortByScoreDesc (l : List Hit) : List Hit :=
  l.foldl (fun acc x => insortDesc x acc) []

/-- `RAGPipeline._retrieve_documents` (rag_pipeline.py lines 53-75): run the
similarity search, package each result as a `Hit`, sort by score descending;
on an exception from the search, catch it and return the empty list. -/
def retrieveDocuments (p : RAGPipeline) (query : Str) (k : Nat) : List Hit :=
  match p.vector_store query k with
  | .error _ => []
  | .ok results =>
    sortByScoreDesc (results.map fun r => ⟨r.1.page_content, r.1.metadata, r.2⟩)

/-- The per-document block of `_prepare_context` (rag_pipeline.py line 84):
`f"[Source {i+1} - {doc.metadata.get('source', 'Unknown')}]\n{doc.content}\n"`. -/
def formatDoc (i : Nat) (doc : Hit) : Str :=
  "[Source ".data ++ (Nat.repr (i + 1)).data ++ " - ".data ++
    doc.metadata.source.getD ("Unknown".data) ++ "]\n".data ++
    doc.content ++ "\n".data

/-- The accumulation loop of `_prepare_context` (rag_pipeline.py lines 79-91):
walk the hits in order with a running length; `break` (drop the whole rest) at
the first block whose addition would push the running length over
`max_context_length`. -/
def prepareContextParts (max_context_length : Nat) :
    List Hit → Nat → Nat → List Str
  | [], _, _ => []
  | doc :: docs, i, current_length =>
    let doc_text := formatDoc i doc
    if max_context_length < current_length + doc_text.length then []
    else doc_text ::
      prepareContextParts max_context_length docs (i + 1)
        (current_length + doc_text.length)

/-- `RAGPipeline._prepare_context` (rag_pipeline.py lines 77-96): the accepted
blocks joined with `"\n".join(...)` — note the joining newlines are not
counted by the accumulation loop. -/
def prepareContext (max_context_length : Nat) (relevant_docs : List Hit) : Str :=
  List.intercalate ("\n".data) (prepareContextParts max_context_length relevant_docs 0 0)

/-- The prompt of `_generate_answer` (rag_pipeline.py lines 102-117), split
around the interpolated context and question. -/
def promptHead : Str :=
  ("Based on the following context from uploaded documents, please answer the user\x27s question. \nIf the context doesn\x27t contain enough information to answer the question, please say so clearly.\n\nContext:\n").data

/-- The prompt text between the context and the question. -/
def promptMid : Str := ("\n\nQuestion: ").data

/-- The prompt text after the question. -/
def promptTail : Str :=
  ("\n\nInstructions:\n- Provide a clear, accurate, and helpful answer based on the context\n- If information is incomplete or unclear, mention this\n- Reference specific sources when possible\n- If the context doesn\x27t contain relevant information, state this clearly\n- Be conversational but informative\n\nAnswer:").data

/-- The full generation prompt of `_generate_answer`. -/
def buildPrompt (question context : Str) : Str :=
  promptHead ++ context ++ promptMid ++ question ++ promptTail

/-- The canned reply of `_generate_answer` for an empty or blank generation
(rag_pipeline.py line 122). -/
def unableMsg : Str :=
  ("I was unable to generate an answer to your question. Please try rephrasing your question or check if your documents contain relevant information.").data

/-- The error reply prefix of `_generate_answer` (rag_pipeline.py line 128). -/
def genErrorMsg : Str :=
  ("I encountered an error while generating an answer: ").data

/-- The canned reply of `query` when retrieval produced no documents
(rag_pipeline.py line 27). -/
def noInfoMsg : Str :=
  ("I couldn\x27t find any relevant information in the uploaded documents to answer your question.").data

/-- `RAGPipeline._generate_answer` (rag_pipeline.py lines 98-128): build the
prompt, call the generator; a blank or empty generation becomes `unableMsg`, a
raised exception is caught and becomes `genErrorMsg` followed by the error
text. -/
def generateAnswer (gen : Str → Except Str Str) (question context : Str) : Str :=
  match gen (buildPrompt question context) with
  | .error e => genErrorMsg ++ e
  | .ok answer => if pyStrip answer = [] then unableMsg else answer

/-- The per-hit body of `RAGPipeline._format_sources` (rag_pipeline.py lines
135-139): content truncated to 500 characters with a `"..."` suffix when it
was longer, score and metadata copied through. -/
def formatSource (doc : Hit) : SourceInfo where
  content :=
    if 500 < doc.content.length then doc.content.take 500 ++ ("...").data
    else doc.content
  score := doc.score
  metadata := doc.metadata

/-- `RAGPipeline._format_sources` (rag_pipeline.py lines 130-142): format
every retrieved hit, in order. -/
def formatSources (relevant_docs : List Hit) : List SourceInfo :=
  relevant_docs.map formatSource

/-- `RAGPipeline.query` (rag_pipeline.py lines 18-51): retrieve, short-circuit
when nothing was retrieved, assemble the context, generate, format all
retrieved hits as sources.  The outer `except` handler of the source is
unreachable in this embedding: both fallible external calls are already caught
inside `_retrieve_documents` and `_generate_answer`. -/
def query (p : RAGPipeline) (question : Str) (num_sources : Nat) : QueryResponse :=
  let relevant_docs := retrieveDocuments p question num_sources
  if relevant_docs = [] then { answer := noInfoMsg, sources := [] }
  else
    let context := prepareContext p.max_context_length relevant_docs
    { answer := generateAnswer p.gemini_client question context
      sources := formatSources relevant_docs }

/-- `RAGPipeline.update_vector_store` (rag_pipeline.py lines 144-147). -/
def updateVectorStore (p : RAGPipeline)
    (new_vector_store : Str → Nat → Except Str (List (Document × Int))) :
    RAGPipeline :=
  { p with vector_store := new_vector_store }

/-- A placeholder hit, used only as the default of `List.getD`. -/
def dummyHit : Hit := ⟨[], ⟨none, 0, []⟩, 0⟩

theorem prepareContextParts_budget (m : Nat) :
    ∀ (docs : List Hit) (i cur : Nat), cur ≤ m →
      ((prepareContextParts m docs i cur).map List.length).sum + cur ≤ m := by
  intro docs
  induction docs with
  | nil =>
    intro i cur h
    simpa [prepareContextParts] using h
  | cons d ds ih =>
    intro i cur h
    simp only [prepareContextParts]
    by_cases hb : m < cur + (formatDoc i d).length
    · rw [if_pos hb]
      simpa using h
    · rw [if_neg hb]
      have := ih (i + 1) (cur + (formatDoc i d).length) (by omega)
      simp only [List.map_cons, List.sum_cons]
      omega

theorem prepareContextParts_pref (m : Nat) :
    ∀ (docs : List Hit) (i cur : Nat),
      prepareContextParts m docs i cur <+:
        (List.enumFrom i docs).map (fun p => formatDoc p.1 p.2) := by
  intro docs
  induction docs with
  | nil =>
    intro i cur
    simp [prepareContextParts]
  | cons d ds ih =>
    intro i cur
    simp only [prepareContextParts, List.enumFrom_cons, List.map_cons]
    by_cases hb : m < cur + (formatDoc i d).length
    · rw [if_pos hb]
      exact List.nil_prefix
    · rw [if_neg hb]
      rcases ih (i + 1) (cur + (formatDoc i d).length) with ⟨t, ht⟩
      exact ⟨t, by rw [List.cons_append, ht]⟩

theorem prepareContextParts_stop (m : Nat) :
    ∀ (docs : List Hit) (i cur : Nat),
      (prepareContextParts m docs i cur).length < docs.length →
      m < cur + ((prepareContextParts m docs i cur).map List.length).sum +
        (formatDoc (i + (prepareContextParts m docs i cur).length)
          (docs.getD (prepareContextParts m docs i cur).length dummyHit)).length := by
  intro docs
  induction docs with
  | nil =>
    intro i cur h
    simp [prepareContextParts] at h
  | cons d ds ih =>
    intro i cur h
    simp only [prepareContextParts] at h ⊢
    by_cases hb : m < cur + (formatDoc i d).length
    · rw [if_pos hb] at h ⊢
      simpa using hb
    · rw [if_neg hb] at h ⊢
      simp only [List.length_cons, List.map_cons, List.sum_cons, List.getD_cons_succ]
      have hlen : (prepareContextParts m ds (i + 1)
          (cur + (formatDoc i d).length)).length < ds.length := by
        simpa using h
      have := ih (i + 1) (cur + (formatDoc i d).length) hlen
      have hidx : i + ((prepareContextParts m ds (i + 1)
            (cur + (formatDoc i d).length)).length + 1) =
          (i + 1) + (prepareContextParts m ds (i + 1)
            (cur + (formatDoc i d).length)).length := by omega
      rw [hidx]
      omega

theorem intercalate_newline_length :
    ∀ ps : List Str, ps ≠ [] →
      (List.intercalate ("\n".data) ps).length + 1 = (ps.map List.length).sum + ps.length := by
  intro ps
  induction ps with
  | nil => intro h; exact absurd rfl h
  | cons a t ih =>
    intro _
    cases t with
    | nil => simp [List.intercalate]
    | cons b t2 =>
      have hstep : List.intercalate ("\n".data) (a :: b :: t2) =
          a ++ '\n' :: List.intercalate ("\n".data) (b :: t2) := by
        simp [List.intercalate]
      have ih2 := ih (by simp)
      rw [hstep]
      simp only [List.map_cons, List.sum_cons, List.length_append,
        List.length_cons] at ih2 ⊢
      omega

/-- C1 amended: the accumulation loop of `_prepare_context` keeps the sum of
the block lengths within `max_context_length`, and blocks are taken greedily
in input order, stopping (not skipping) at the first block whose addition
would exceed the budget; but the `"\n"` separators inserted by the final join
are not counted, so the returned string is only bounded by
`max_context_length + (used - 1)`, not by `max_context_length` itself. -/
theorem prepareContext_budget (m : Nat) (docs : List Hit) :
    ((prepareContextParts m docs 0 0).map List.length).sum ≤ m ∧
    (prepareContext m docs).length ≤ m + (prepareContextParts m docs 0 0).length - 1 ∧
    prepareContextParts m docs 0 0 =
      (docs.enum.map (fun p => formatDoc p.1 p.2)).take
        (prepareContextParts m docs 0 0).length ∧
    ((prepareContextParts m docs 0 0).length < docs.length →
      m < ((prepareContextParts m docs 0 0).map List.length).sum +
        (formatDoc (prepareContextParts m docs 0 0).length
          (docs.getD (prepareContextParts m docs 0 0).length dummyHit)).length) := by
  have hsum : ((prepareContextParts m docs 0 0).map List.length).sum ≤ m := by
    have := prepareContextParts_budget m docs 0 0 (Nat.zero_le m)
    omega
  refine ⟨hsum, ?_, ?_, ?_⟩
  · by_cases hnil : prepareContextParts m docs 0 0 = []
    · rw [prepareContext, hnil]
      simp [List.intercalate]
    · have := intercalate_newline_length (prepareContextParts m docs 0 0) hnil
      have hpos : 0 < (prepareContextParts m docs 0 0).length :=
        List.length_pos.mpr hnil
      rw [prepareContext]
      omega
  · have henum : docs.enum = List.enumFrom 0 docs := rfl
    rw [henum]
    exact List.prefix_iff_eq_take.mp (prepareContextParts_pref m docs 0 0)
  · intro h
    have := prepareContextParts_stop m docs 0 0 h
    simp only [Nat.zero_add] at this
    omega

/-- C1 amended, witness: two one-character hits against a budget of 20: one
block of 17 characters is used, and adding the second 17-character block
would overflow. -/
theorem prepareContext_budget_witness :
    (prepareContextParts 20 [⟨"x".data, ⟨some ("A".data), 0, "txt".data⟩, 1⟩,
        ⟨"y".data, ⟨some ("B".data), 0, "txt".data⟩, 0⟩] 0 0).length <
      ([⟨"x".data, ⟨some ("A".data), 0, "txt".data⟩, 1⟩,
        ⟨"y".data, ⟨some ("B".data), 0, "txt".data⟩, 0⟩] : List Hit).length ∧
    20 < ((prepareContextParts 20 [⟨"x".data, ⟨some ("A".data), 0, "txt".data⟩, 1⟩,
        ⟨"y".data, ⟨some ("B".data), 0, "txt".data⟩, 0⟩] 0 0).map List.length).sum +
      (formatDoc (prepareContextParts 20 [⟨"x".data, ⟨some ("A".data), 0, "txt".data⟩, 1⟩,
          ⟨"y".data, ⟨some ("B".data), 0, "txt".data⟩, 0⟩] 0 0).length
        (([⟨"x".data, ⟨some ("A".data), 0, "txt".data⟩, 1⟩,
          ⟨"y".data, ⟨some ("B".data), 0, "txt".data⟩, 0⟩] : List Hit).getD
          (prepareContextParts 20 [⟨"x".data, ⟨some ("A".data), 0, "txt".data⟩, 1⟩,
            ⟨"y".data, ⟨some ("B".data), 0, "txt".data⟩, 0⟩] 0 0).length dummyHit)).length :=
  ⟨by decide,
    (prepareContext_budget 20 [⟨"x".data, ⟨some ("A".data), 0, "txt".data⟩, 1⟩,
      ⟨"y".data, ⟨some ("B".data), 0, "txt".data⟩, 0⟩]).2.2.2 (by decide)⟩

/-- C1 counterexample: two hits whose blocks are 17 characters each, with
`max_context_length = 34`: both blocks are accepted (17 + 17 = 34 fits), but
the join inserts an uncounted `"\n"`, so the returned context string has
length 35, exceeding the budget. -/
theorem prepareContext_budget_counterexample :
    34 < (prepareContext 34 [⟨"x".data, ⟨some ("A".data), 0, "txt".data⟩, 1⟩,
      ⟨"x".data, ⟨some ("A".data), 0, "txt".data⟩, 0⟩]).length := by
  decide

/-- A demonstration pipeline: two one-character hits, generation succeeds,
`max_context_length = 20`, so the context has room for exactly one
17-character block. -/
def demoPipeline : RAGPipeline where
  vector_store := fun _ _ => Except.ok
    [(⟨"x".data, ⟨some ("A".data), 0, "txt".data⟩⟩, 1),
     (⟨"y".data, ⟨some ("B".data), 1, "txt".data⟩⟩, 0)]
  gemini_client := fun _ => Except.ok ("ans".data)
  max_context_length := 20

/-- C2 counterexample: with `demoPipeline` the context assembler uses only 1
of the 2 retrieved hits (the second block would overflow the 20-character
budget), but `query` still returns 2 sources — the sources list is not
trimmed to the assembler's used count, so the 2nd source matches no
`[Source 2]` label in the context. -/
theorem query_sources_counterexample :
    (prepareContextParts 20 (retrieveDocuments demoPipeline ("q".data) 2) 0 0).length = 1 ∧
      ((query demoPipeline ("q".data) 2).sources).length = 2 := by
  refine ⟨by decide, by decide⟩

/-- C2 amended: the sources list contains every retrieved hit, formatted, in
exactly the order used to build the context — it is not trimmed to the
assembler's used count, so the `[Source N]` correspondence is only guaranteed
when the assembler used all retrieved hits. -/
theorem query_sources_order (p : RAGPipeline) (question : Str) (k : Nat)
    (h : retrieveDocuments p question k ≠ []) :
    (query p question k).sources =
      (retrieveDocuments p question k).map formatSource ∧
    ((prepareContextParts p.max_context_length
        (retrieveDocuments p question k) 0 0).length =
        (retrieveDocuments p question k).length →
      (query p question k).sources.length =
        (prepareContextParts p.max_context_length
          (retrieveDocuments p question k) 0 0).length) := by
  have hsrc : (query p question k).sources =
      (retrieveDocuments p question k).map formatSource := by
    simp only [query]
    rw [if_neg h]
    rfl
  refine ⟨hsrc, fun hall => ?_⟩
  rw [hsrc, List.length_map, hall]

/-- C2 amended, witness: `demoPipeline` retrieves a non-empty hit list. -/
theorem query_sources_order_witness :
    retrieveDocuments demoPipeline ("q".data) 2 ≠ [] ∧
      (query demoPipeline ("q".data) 2).sources =
        (retrieveDocuments demoPipeline ("q".data) 2).map formatSource :=
  ⟨by decide, (query_sources_order demoPipeline ("q".data) 2 (by decide)).1⟩

theorem generateAnswer_ne_nil (gen : Str → Except Str Str)
    (question context : Str) : generateAnswer gen question context ≠ [] := by
  unfold generateAnswer
  cases gen (buildPrompt question context) with
  | error e =>
    intro hc
    have : genErrorMsg = [] := (List.append_eq_nil.mp hc).1
    exact absurd this (by decide)
  | ok a =>
    show (if pyStrip a = [] then unableMsg else a) ≠ []
    by_cases hstrip : pyStrip a = []
    · rw [if_pos hstrip]
      decide
    · rw [if_neg hstrip]
      intro hc
      exact hstrip (by rw [hc]; rfl)

/-- C6: `query` is total in this embedding (the source catches every
retrieval and generation exception inside the pipeline), its answer is a
non-empty string on every input — including when the similarity search or
the generator raise — and a raised search exception is converted into the
canned no-relevant-information response with empty sources. -/
theorem query_never_raises (p : RAGPipeline) (question : Str) (k : Nat)
    (e : Str) (gen : Str → Except Str Str) (m : Nat) :
    (query p question k).answer ≠ [] ∧
      query ⟨fun _ _ => Except.error e, gen, m⟩ question k =
        { answer := noInfoMsg, sources := [] } := by
  constructor
  · simp only [query]
    by_cases hr : retrieveDocuments p question k = []
    · rw [if_pos hr]
      decide
    · rw [if_neg hr]
      exact generateAnswer_ne_nil _ _ _
  · rfl

theorem formatSource_content_le (d : Hit) :
    (formatSource d).content.length ≤ 503 := by
  simp only [formatSource]
  by_cases h5 : 500 < d.content.length
  · rw [if_pos h5, List.length_append, List.length_take]
    have h3 : (['.', '.', '.'] : List Char).length = 3 := rfl
    omega
  · rw [if_neg h5]
    omega

/-- C7: when retrieval returns at least one hit and the generator raises,
the response answer is the generation-error message followed by the error
detail (in particular non-empty), and the sources still contain every
already-retrieved hit, formatted with the 500-character truncation cap, not
an empty list; nothing propagates as an exception (the result is an ordinary
response value). -/
theorem query_generation_failure
    (vs : Str → Nat → Except Str (List (Document × Int))) (m : Nat)
    (question : Str) (k : Nat) (e : Str)
    (h : retrieveDocuments ⟨vs, fun _ => Except.error e, m⟩ question k ≠ []) :
    (query ⟨vs, fun _ => Except.error e, m⟩ question k).answer = genErrorMsg ++ e ∧
    (query ⟨vs, fun _ => Except.error e, m⟩ question k).answer ≠ [] ∧
    (query ⟨vs, fun _ => Except.error e, m⟩ question k).sources =
      (retrieveDocuments ⟨vs, fun _ => Except.error e, m⟩ question k).map formatSource ∧
    (query ⟨vs, fun _ => Except.error e, m⟩ question k).sources ≠ [] ∧
    ∀ s ∈ (query ⟨vs, fun _ => Except.error e, m⟩ question k).sources,
      s.content.length ≤ 503 := by
  have hq : query ⟨vs, fun _ => Except.error e, m⟩ question k =
      { answer := genErrorMsg ++ e,
        sources := formatSources
          (retrieveDocuments ⟨vs, fun _ => Except.error e, m⟩ question k) } := by
    simp only [query]
    rw [if_neg h]
    rfl
  rw [hq]
  refine ⟨rfl, ?_, rfl, ?_, ?_⟩
  · intro hc
    have : genErrorMsg = [] := (List.append_eq_nil.mp hc).1
    exact absurd this (by decide)
  · intro hmap
    exact h (List.map_eq_nil_iff.mp hmap)
  · intro s hs
    rcases List.mem_map.mp hs with ⟨d, _, rfl⟩
    exact formatSource_content_le d

/-- C7 witness: one retrieved hit, generator raising `"boom"`. -/
theorem query_generation_failure_witness :
    retrieveDocuments ⟨fun _ _ => Except.ok
        [(⟨"x".data, ⟨some ("A".data), 0, "txt".data⟩⟩, 1)],
      fun _ => Except.error ("boom".data), 100⟩ ("q".data) 1 ≠ [] ∧
    (query ⟨fun _ _ => Except.ok
        [(⟨"x".data, ⟨some ("A".data), 0, "txt".data⟩⟩, 1)],
      fun _ => Except.error ("boom".data), 100⟩ ("q".data) 1).answer =
      genErrorMsg ++ "boom".data ∧
    (query ⟨fun _ _ => Except.ok
        [(⟨"x".data, ⟨some ("A".data), 0, "txt".data⟩⟩, 1)],
      fun _ => Except.error ("boom".data), 100⟩ ("q".data) 1).sources ≠ [] :=
  ⟨by decide,
    (query_generation_failure (fun _ _ => Except.ok
        [(⟨"x".data, ⟨some ("A".data), 0, "txt".data⟩⟩, 1)]) 100
      ("q".data) 1 ("boom".data) (by decide)).1,
    (query_generation_failure (fun _ _ => Except.ok
        [(⟨"x".data, ⟨some ("A".data), 0, "txt".data⟩⟩, 1)]) 100
      ("q".data) 1 ("boom".data) (by decide)).2.2.2.1⟩

/-- C8: `_format_sources` preserves each hit's score and metadata, keeps the
content verbatim when it has at most 500 characters, and otherwise replaces
it by its first 500 characters followed by `"..."` — so a 600-character
content yields a 503-character source content. -/
theorem formatSource_spec (doc : Hit) :
    (formatSource doc).score = doc.score ∧
    (formatSource doc).metadata = doc.metadata ∧
    (doc.content.length ≤ 500 → (formatSource doc).content = doc.content) ∧
    (500 < doc.content.length →
      (formatSource doc).content = doc.content.take 500 ++ ("...".data) ∧
      (formatSource doc).content.length = 503) := by
  refine ⟨rfl, rfl, fun h => ?_, fun h => ⟨?_, ?_⟩⟩
  · simp only [formatSource]
    rw [if_neg (not_lt.mpr h)]
  · simp only [formatSource]
    rw [if_pos h]
  · simp only [formatSource]
    rw [if_pos h, List.length_append, List.length_take]
    have h3 : (['.', '.', '.'] : List Char).length = 3 := rfl
    omega

/-- C8 witness: a hit with 600-character content is formatted to a
503-character source content. -/
theorem formatSource_spec_witness :
    500 < (List.replicate 600 'a').length ∧
      (formatSource ⟨List.replicate 600 'a',
        ⟨some ("A".data), 0, "txt".data⟩, 1⟩).content.length = 503 :=
  ⟨by rw [List.length_replicate]; norm_num,
    ((formatSource_spec ⟨List.replicate 600 'a',
      ⟨some ("A".data), 0, "txt".data⟩, 1⟩).2.2.2
        (by rw [List.length_replicate]; norm_num)).2⟩

/-- C10: `update_vector_store` replaces only the `vector_store` field; the
`gemini_client` and `max_context_length` fields are unchanged. -/
theorem updateVectorStore_frame (p : RAGPipeline)
    (nv : Str → Nat → Except Str (List (Document × Int))) :
    (updateVectorStore p nv).gemini_client = p.gemini_client ∧
    (updateVectorStore p nv).max_context_length = p.max_context_length ∧
    (updateVectorStore p nv).vector_store = nv :=
  ⟨rfl, rfl, rfl⟩

